import Mathlib

/-
  Verification of the Alpha-Driven Market-Making Simulator core
  (quote_engine.py and execution_simulator.py), shallowly embedded.

  Floating-point values are modelled as `Option ℚ`: `none` stands for IEEE
  NaN (numpy's sentinel for an absent quote), and every arithmetic operation
  propagates `none` exactly as float arithmetic propagates NaN; comparisons
  against NaN are false.  `np.exp` and the square root inside the rolling
  standard deviation are kept abstract as function parameters, so every
  theorem quantifies over them (they are only ever applied to the arguments
  the source applies them to).
-/

namespace MMS

/-- Trade direction recorded per step: the source logs "sell", "buy" or None. -/
inductive Direction where
  | buy
  | sell
  | nofill
  deriving DecidableEq, Repr

/-- One input row of the execution simulator: the columns 'mid', 'quoted_bid'
and 'quoted_ask' of the DataFrame.  `none` models a NaN entry. -/
structure Row where
  mid : Option ℚ
  quoted_bid : Option ℚ
  quoted_ask : Option ℚ
  deriving DecidableEq, Repr

/-- NaN-propagating float addition. -/
def fadd : Option ℚ → Option ℚ → Option ℚ
  | some x, some y => some (x + y)
  | _, _ => none

/-- NaN-propagating float subtraction. -/
def fsub : Option ℚ → Option ℚ → Option ℚ
  | some x, some y => some (x - y)
  | _, _ => none

/-- NaN-propagating float multiplication. -/
def fmul : Option ℚ → Option ℚ → Option ℚ
  | some x, some y => some (x * y)
  | _, _ => none

/-- `np.exp` on a float: NaN maps to NaN, otherwise the abstract `expF`. -/
def fexp (expF : ℚ → ℚ) : Option ℚ → Option ℚ
  | some x => some (expF x)
  | none => none

/-- Float `<` comparison: any comparison against NaN is false. -/
def flt (r : ℚ) : Option ℚ → Bool
  | some x => decide (r < x)
  | none => false

/-- Hyperparameter of simulate_execution: `aggressiveness_scale = 20.0`. -/
def aggressiveness_scale : ℚ := 20

/-- `prob_bid = np.exp(-aggressiveness_scale * dist_bid)` with
`dist_bid = mid - bid`, exactly as in the source. -/
def probBidOf (expF : ℚ → ℚ) (r : Row) : Option ℚ :=
  fexp expF (fmul (some (-aggressiveness_scale)) (fsub r.mid r.quoted_bid))

/-- `prob_ask = np.exp(-aggressiveness_scale * dist_ask)` with
`dist_ask = ask - mid`, exactly as in the source. -/
def probAskOf (expF : ℚ → ℚ) (r : Row) : Option ℚ :=
  fexp expF (fmul (some (-aggressiveness_scale)) (fsub r.quoted_ask r.mid))

/-- One loop iteration of simulate_execution: draw `rand`, test the sell
branch (`rand < prob_ask`), then the buy branch
(`rand < prob_ask + prob_bid`), updating inventory and cash. -/
def execStep (expF : ℚ → ℚ) (r : Row) (rand : ℚ) (inv : ℤ) (cash : Option ℚ) :
    ℤ × Option ℚ × Direction :=
  if flt rand (probAskOf expF r) then
    (inv - 1, fadd cash r.quoted_ask, Direction.sell)
  else if flt rand (fadd (probAskOf expF r) (probBidOf expF r)) then
    (inv + 1, fsub cash r.quoted_bid, Direction.buy)
  else
    (inv, cash, Direction.nofill)

/-- Default row used only as a `getD` fallback. -/
def dRow : Row := ⟨none, none, none⟩

/-- Default per-step output used only as a `getD` fallback. -/
def dOut : ℤ × Option ℚ × Direction := (0, none, Direction.nofill)

/-- The sequential loop of simulate_execution: one `execStep` per row, the
random draw at step `t` being `rng t`, threading inventory and cash. -/
def traj (expF : ℚ → ℚ) (rng : Nat → ℚ) :
    List Row → Nat → ℤ → Option ℚ → List (ℤ × Option ℚ × Direction)
  | [], _, _, _ => []
  | r :: rest, t, inv, cash =>
    let s := execStep expF r (rng t) inv cash
    s :: traj expF rng rest (t + 1) s.1 s.2.1

/-- The four output columns of simulate_execution. -/
structure SimResult where
  inventory : List ℤ
  cash : List (Option ℚ)
  execLog : List Direction
  pnl : List (Option ℚ)
  deriving DecidableEq, Repr

/-- simulate_execution: runs the sequential fill loop from
`inventory = 0, cash = 0` and derives
`pnl = cash + inventory * mid` columnwise, as in the source. -/
def simulate_execution (expF : ℚ → ℚ) (rng : Nat → ℚ) (rows : List Row) :
    SimResult :=
  let tr := traj expF rng rows 0 0 (some 0)
  { inventory := tr.map (fun s => s.1)
    cash := tr.map (fun s => s.2.1)
    execLog := tr.map (fun s => s.2.2)
    pnl := List.zipWith (fun s r => fadd s.2.1 (fmul (some ((s.1 : ℚ))) r.mid)) tr rows }

/-- Inventory column at step `t`. -/
def invAt (res : SimResult) (t : Nat) : ℤ := res.inventory.getD t 0

/-- Cash column at step `t`. -/
def cashAt (res : SimResult) (t : Nat) : Option ℚ := res.cash.getD t none

/-- Execution column at step `t`. -/
def execAt (res : SimResult) (t : Nat) : Direction := res.execLog.getD t Direction.nofill

/-- PnL column at step `t`. -/
def pnlAt (res : SimResult) (t : Nat) : Option ℚ := res.pnl.getD t none

/-- State (inventory, cash) before step `j` of the loop, starting from state
`s0` at step `t0`.  This is the explicit unrolling of the loop's threading. -/
def stateFrom (expF : ℚ → ℚ) (rng : Nat → ℚ) (rows : List Row) (t0 : Nat)
    (s0 : ℤ × Option ℚ) : Nat → ℤ × Option ℚ
  | 0 => s0
  | j + 1 =>
    let s := stateFrom expF rng rows t0 s0 j
    let o := execStep expF (rows.getD j dRow) (rng (t0 + j)) s.1 s.2
    (o.1, o.2.1)

/-
  Quote engine (quote_engine.py).  pandas Series are embedded as
  `List (Option ℚ)`; elementwise binary operations align two Series of
  unequal length the way pandas aligns two default `RangeIndex`es: the
  shorter one is padded with NaN (`none`) up to the longer length.
-/

/-- A pandas float Series: `none` entries are NaN. -/
abbrev Series := List (Option ℚ)

/-- Pad a Series with NaN up to length `n` (pandas index alignment). -/
def padTo (n : Nat) (s : Series) : Series := s ++ List.replicate (n - s.length) none

/-- NaN-propagating binary operation on float values. -/
def fbin (f : ℚ → ℚ → ℚ) : Option ℚ → Option ℚ → Option ℚ
  | some u, some v => some (f u v)
  | _, _ => none

/-- Elementwise binary operation on two Series, pandas-aligned. -/
def sbin (f : ℚ → ℚ → ℚ) (a b : Series) : Series :=
  List.zipWith (fbin f) (padTo (max a.length b.length) a) (padTo (max a.length b.length) b)

/-- Series-scalar operation (broadcast). -/
def smapc (f : ℚ → ℚ) (s : Series) : Series := s.map (Option.map f)

/-- The trailing window of width `w` ending at index `t` (as pandas
`rolling(window=w)` sees it). -/
def windowSlice (w : Nat) (xs : List ℚ) (t : Nat) : List ℚ :=
  (xs.take (t + 1)).drop (t + 1 - w)

/-- Sample variance with one delta degree of freedom (pandas `std()` squared). -/
def sampleVar (ys : List ℚ) : ℚ :=
  let m := ys.sum / (ys.length : ℚ)
  (ys.map (fun y => (y - m) * (y - m))).sum / ((ys.length : ℚ) - 1)

/-- `mid_prices.rolling(window=w).std().fillna(0)`: the first `w - 1` entries
are NaN, filled with 0; from then on the sample standard deviation of the
trailing window, the square root kept abstract as `sqrtF`. -/
def rollingStdFill (sqrtF : ℚ → ℚ) (w : Nat) (xs : List ℚ) : List ℚ :=
  (List.range xs.length).map
    (fun t => if t + 1 < w then 0 else sqrtF (sampleVar (windowSlice w xs t)))

/-- The risk-weighted inventory penalty Series
`inventory * inventory_penalty * adj_vol` with `adj_vol = 1 + rolling_volatility`. -/
def penaltySeries (sqrtF : ℚ → ℚ) (mid_prices inventory : List ℚ)
    (inventory_penalty : ℚ) : Series :=
  sbin (· * ·) (smapc (· * inventory_penalty) (inventory.map some))
    ((rollingStdFill sqrtF 10 mid_prices).map (fun v => some (1 + v)))

/-- `bid = mid_prices - base_spread/2 - inventory*inventory_penalty*adj_vol
  + signals*signal_strength` before the position-limit loop. -/
def rawBid (sqrtF : ℚ → ℚ) (mid_prices signals inventory : List ℚ)
    (base_spread inventory_penalty signal_strength : ℚ) : Series :=
  sbin (· + ·)
    (sbin (· - ·) (smapc (· - base_spread / 2) (mid_prices.map some))
      (penaltySeries sqrtF mid_prices inventory inventory_penalty))
    (smapc (· * signal_strength) (signals.map some))

/-- `ask = mid_prices + base_spread/2 - inventory*inventory_penalty*adj_vol
  + signals*signal_strength` before the position-limit loop. -/
def rawAsk (sqrtF : ℚ → ℚ) (mid_prices signals inventory : List ℚ)
    (base_spread inventory_penalty signal_strength : ℚ) : Series :=
  sbin (· + ·)
    (sbin (· - ·) (smapc (· + base_spread / 2) (mid_prices.map some))
      (penaltySeries sqrtF mid_prices inventory inventory_penalty))
    (smapc (· * signal_strength) (signals.map some))

/-- Index the inventory Series for the position-limit loop:
`(0, inventory[0]), (1, inventory[1]), ...`. -/
def enumFromQ (i : Nat) : List ℚ → List (Nat × ℚ)
  | [] => []
  | x :: xs => (i, x) :: enumFromQ (i + 1) xs

/-- The position-limit loop of generate_quotes:
`for t in range(len(inventory)): if inventory[t] >= max_inventory: bid[t] = nan
elif inventory[t] <= -max_inventory: ask[t] = nan`. -/
def limitLoop (max_inventory : ℚ) :
    List (Nat × ℚ) → Series → Series → Series × Series
  | [], bid, ask => (bid, ask)
  | (t, iv) :: rest, bid, ask =>
    if max_inventory ≤ iv then limitLoop max_inventory rest (bid.set t none) ask
    else if iv ≤ -max_inventory then limitLoop max_inventory rest bid (ask.set t none)
    else limitLoop max_inventory rest bid ask

/-- The two quote columns returned by generate_quotes. -/
structure Quotes where
  bid : Series
  ask : Series
  deriving DecidableEq, Repr

/-- generate_quotes: the quote formula followed by the position-limit loop
with the source's local constant `max_inventory = 10`. -/
def generate_quotes (sqrtF : ℚ → ℚ) (mid_prices signals inventory : List ℚ)
    (base_spread inventory_penalty signal_strength : ℚ) : Quotes :=
  let p := limitLoop 10 (enumFromQ 0 inventory)
    (rawBid sqrtF mid_prices signals inventory base_spread inventory_penalty signal_strength)
    (rawAsk sqrtF mid_prices signals inventory base_spread inventory_penalty signal_strength)
  ⟨p.1, p.2⟩

/-
  DataFrame wrapper of simulate_execution.  A DataFrame is an ordered
  association list of named columns; `df[name] = col` replaces the column in
  place when the name exists and appends it at the end otherwise, exactly as
  pandas column assignment behaves.
-/

/-- A DataFrame column: float, integer or object (direction) valued. -/
inductive Col where
  | nums (xs : List (Option ℚ))
  | ints (xs : List ℤ)
  | dirs (xs : List Direction)
  deriving DecidableEq, Repr

/-- A DataFrame: named columns in order. -/
abbrev DF := List (String × Col)

/-- Column lookup `df[name]`. -/
def getCol : DF → String → Option Col
  | [], _ => none
  | p :: rest, name => if p.1 = name then some p.2 else getCol rest name

/-- Column assignment `df[name] = c`: overwrite in place if present,
append at the end otherwise. -/
def setCol : DF → String → Col → DF
  | [], name, c => [(name, c)]
  | p :: rest, name, c =>
    if p.1 = name then (p.1, c) :: rest else p :: setCol rest name c

/-- Read a float column's values (fallback for a missing or non-float column). -/
def colNums : Option Col → List (Option ℚ)
  | some (Col.nums xs) => xs
  | _ => []

/-- Pair the 'mid', 'quoted_bid' and 'quoted_ask' columns into rows. -/
def mkRows : List (Option ℚ) → List (Option ℚ) → List (Option ℚ) → List Row
  | m :: ms, b :: bs, a :: aks => ⟨m, b, a⟩ :: mkRows ms bs aks
  | _, _, _ => []

/-- simulate_execution at the DataFrame level: run the fill loop on the
'mid'/'quoted_bid'/'quoted_ask' columns, then assign the four columns
'inventory', 'cash', 'execution' and 'pnl' to the frame. -/
def simulate_execution_df (expF : ℚ → ℚ) (rng : Nat → ℚ) (df : DF) : DF :=
  let rows := mkRows (colNums (getCol df "mid")) (colNums (getCol df "quoted_bid"))
    (colNums (getCol df "quoted_ask"))
  let res := simulate_execution expF rng rows
  let df1 := setCol df "inventory" (Col.ints res.inventory)
  let df2 := setCol df1 "cash" (Col.nums res.cash)
  let df3 := setCol df2 "execution" (Col.dirs res.execLog)
  setCol df3 "pnl" (Col.nums res.pnl)

/-
  Generic list-indexing lemmas used throughout.
-/

theorem getD_map_of_lt {α β : Type} (f : α → β) (d : α) :
    ∀ (l : List α) (i : Nat) (e : β), i < l.length →
      (l.map f).getD i e = f (l.getD i d) := by
  intro l
  induction l with
  | nil => intro i e h; simp at h
  | cons a l ih =>
    intro i e h
    cases i with
    | zero => simp
    | succ j =>
      simp only [List.map_cons, List.getD_cons_succ]
      exact ih j e (by simpa using h)

theorem getD_zipWith_of_lt {α β γ : Type} (f : α → β → γ) (d1 : α) (d2 : β) :
    ∀ (l1 : List α) (l2 : List β) (i : Nat) (e : γ),
      i < l1.length → i < l2.length →
      (List.zipWith f l1 l2).getD i e = f (l1.getD i d1) (l2.getD i d2) := by
  intro l1
  induction l1 with
  | nil => intro l2 i e h1 _; simp at h1
  | cons a l1 ih =>
    intro l2 i e h1 h2
    cases l2 with
    | nil => simp at h2
    | cons b l2 =>
      cases i with
      | zero => simp
      | succ j =>
        simp only [List.zipWith_cons_cons, List.getD_cons_succ]
        exact ih l2 j e (by simpa using h1) (by simpa using h2)

theorem getD_append_left {α : Type} :
    ∀ (l1 l2 : List α) (i : Nat) (d : α), i < l1.length →
      (l1 ++ l2).getD i d = l1.getD i d := by
  intro l1
  induction l1 with
  | nil => intro l2 i d h; simp at h
  | cons a l1 ih =>
    intro l2 i d h
    cases i with
    | zero => simp
    | succ j =>
      simp only [List.cons_append, List.getD_cons_succ]
      exact ih l2 j d (by simpa using h)

theorem getD_set_self {α : Type} :
    ∀ (l : List α) (i : Nat) (v d : α), i < l.length →
      (l.set i v).getD i d = v := by
  intro l
  induction l with
  | nil => intro i v d h; simp at h
  | cons a l ih =>
    intro i v d h
    cases i with
    | zero => simp
    | succ j =>
      simp only [List.set_cons_succ, List.getD_cons_succ]
      exact ih j v d (by simpa using h)

theorem getD_set_ne {α : Type} :
    ∀ (l : List α) (i j : Nat) (v : α) (d : α), i ≠ j →
      (l.set i v).getD j d = l.getD j d := by
  intro l
  induction l with
  | nil => intro i j v d _; simp
  | cons a l ih =>
    intro i j v d hne
    cases i with
    | zero =>
      cases j with
      | zero => exact absurd rfl hne
      | succ k => simp
    | succ i' =>
      cases j with
      | zero => simp
      | succ k =>
        simp only [List.set_cons_succ, List.getD_cons_succ]
        exact ih i' k v d (fun h => hne (by omega))

/-
  Loop unrolling lemmas: the trajectory produced by the sequential fill loop
  is, at every index, the step function applied to the state threaded so far.
-/

theorem traj_length (expF : ℚ → ℚ) (rng : Nat → ℚ) :
    ∀ (rows : List Row) (t : Nat) (inv : ℤ) (cash : Option ℚ),
      (traj expF rng rows t inv cash).length = rows.length := by
  intro rows
  induction rows with
  | nil => intro t inv cash; rfl
  | cons r rest ih =>
    intro t inv cash
    simp only [traj, List.length_cons]
    rw [ih]

theorem stateFrom_succ (expF : ℚ → ℚ) (rng : Nat → ℚ) (rows : List Row) (t0 : Nat)
    (s0 : ℤ × Option ℚ) (j : Nat) :
    stateFrom expF rng rows t0 s0 (j + 1) =
      ((execStep expF (rows.getD j dRow) (rng (t0 + j))
          (stateFrom expF rng rows t0 s0 j).1 (stateFrom expF rng rows t0 s0 j).2).1,
        (execStep expF (rows.getD j dRow) (rng (t0 + j))
          (stateFrom expF rng rows t0 s0 j).1 (stateFrom expF rng rows t0 s0 j).2).2.1) :=
  rfl

theorem stateFrom_shift (expF : ℚ → ℚ) (rng : Nat → ℚ) :
    ∀ (k : Nat) (r : Row) (rows : List Row) (t0 : Nat) (s0 : ℤ × Option ℚ),
      stateFrom expF rng (r :: rows) t0 s0 (k + 1) =
        stateFrom expF rng rows (t0 + 1)
          ((execStep expF r (rng t0) s0.1 s0.2).1,
            (execStep expF r (rng t0) s0.1 s0.2).2.1) k := by
  intro k
  induction k with
  | zero =>
    intro r rows t0 s0
    simp [stateFrom_succ, stateFrom, dRow]
  | succ k ih =>
    intro r rows t0 s0
    have harg : t0 + (k + 1) = t0 + 1 + k := by omega
    rw [stateFrom_succ expF rng (r :: rows) t0 s0 (k + 1), ih r rows t0 s0,
      stateFrom_succ expF rng rows (t0 + 1)
        ((execStep expF r (rng t0) s0.1 s0.2).1,
          (execStep expF r (rng t0) s0.1 s0.2).2.1) k]
    simp only [List.getD_cons_succ, harg]

theorem traj_getD (expF : ℚ → ℚ) (rng : Nat → ℚ) :
    ∀ (rows : List Row) (j t0 : Nat) (s0 : ℤ × Option ℚ), j < rows.length →
      (traj expF rng rows t0 s0.1 s0.2).getD j dOut =
        execStep expF (rows.getD j dRow) (rng (t0 + j))
          (stateFrom expF rng rows t0 s0 j).1
          (stateFrom expF rng rows t0 s0 j).2 := by
  intro rows
  induction rows with
  | nil => intro j t0 s0 h; simp at h
  | cons r rest ih =>
    intro j t0 s0 h
    cases j with
    | zero => simp [traj, stateFrom]
    | succ k =>
      have hk : k < rest.length := by simpa using h
      have harg : t0 + (k + 1) = t0 + 1 + k := by omega
      simp only [traj, List.getD_cons_succ, List.getD_cons_succ,
        stateFrom_shift expF rng k r rest t0 s0, harg]
      exact ih k (t0 + 1)
        ((execStep expF r (rng t0) s0.1 s0.2).1,
          (execStep expF r (rng t0) s0.1 s0.2).2.1) hk

/-- The state threaded into step `j` of a full run (from step 0,
inventory 0, cash 0). -/
def stateAt (expF : ℚ → ℚ) (rng : Nat → ℚ) (rows : List Row) : Nat → ℤ × Option ℚ :=
  stateFrom expF rng rows 0 (0, some 0)

theorem traj_getD_run (expF : ℚ → ℚ) (rng : Nat → ℚ) (rows : List Row) (j : Nat)
    (h : j < rows.length) :
    (traj expF rng rows 0 0 (some 0)).getD j dOut =
      execStep expF (rows.getD j dRow) (rng j)
        (stateAt expF rng rows j).1 (stateAt expF rng rows j).2 := by
  have := traj_getD expF rng rows j 0 (0, some 0) h
  simpa [stateAt] using this

theorem stateAt_succ (expF : ℚ → ℚ) (rng : Nat → ℚ) (rows : List Row) (j : Nat)
    (h : j < rows.length) :
    stateAt expF rng rows (j + 1) =
      (((traj expF rng rows 0 0 (some 0)).getD j dOut).1,
        ((traj expF rng rows 0 0 (some 0)).getD j dOut).2.1) := by
  rw [traj_getD_run expF rng rows j h]
  simp [stateAt, stateFrom]

theorem invAt_run (expF : ℚ → ℚ) (rng : Nat → ℚ) (rows : List Row) (t : Nat)
    (h : t < rows.length) :
    invAt (simulate_execution expF rng rows) t =
      ((traj expF rng rows 0 0 (some 0)).getD t dOut).1 := by
  have hlen := traj_length expF rng rows 0 0 (some 0)
  simp only [simulate_execution, invAt]
  exact getD_map_of_lt (fun s => s.1) dOut _ t 0 (by rw [hlen]; exact h)

theorem cashAt_run (expF : ℚ → ℚ) (rng : Nat → ℚ) (rows : List Row) (t : Nat)
    (h : t < rows.length) :
    cashAt (simulate_execution expF rng rows) t =
      ((traj expF rng rows 0 0 (some 0)).getD t dOut).2.1 := by
  have hlen := traj_length expF rng rows 0 0 (some 0)
  simp only [simulate_execution, cashAt]
  exact getD_map_of_lt (fun s => s.2.1) dOut _ t none (by rw [hlen]; exact h)

theorem execAt_run (expF : ℚ → ℚ) (rng : Nat → ℚ) (rows : List Row) (t : Nat)
    (h : t < rows.length) :
    execAt (simulate_execution expF rng rows) t =
      ((traj expF rng rows 0 0 (some 0)).getD t dOut).2.2 := by
  have hlen := traj_length expF rng rows 0 0 (some 0)
  simp only [simulate_execution, execAt]
  exact getD_map_of_lt (fun s => s.2.2) dOut _ t Direction.nofill (by rw [hlen]; exact h)

theorem pnlAt_run (expF : ℚ → ℚ) (rng : Nat → ℚ) (rows : List Row) (t : Nat)
    (h : t < rows.length) :
    pnlAt (simulate_execution expF rng rows) t =
      fadd ((traj expF rng rows 0 0 (some 0)).getD t dOut).2.1
        (fmul (some ((((traj expF rng rows 0 0 (some 0)).getD t dOut).1 : ℤ) : ℚ))
          (rows.getD t dRow).mid) := by
  have hlen := traj_length expF rng rows 0 0 (some 0)
  simp only [simulate_execution, pnlAt]
  exact getD_zipWith_of_lt (fun s r => fadd s.2.1 (fmul (some ((s.1 : ℚ))) r.mid))
    dOut dRow _ rows t none (by rw [hlen]; exact h) h

theorem fadd_none_left (b : Option ℚ) : fadd none b = none := by cases b <;> rfl

theorem fadd_none_right (a : Option ℚ) : fadd a none = none := by cases a <;> rfl

theorem fsub_none_right (a : Option ℚ) : fsub a none = none := by cases a <;> rfl

theorem fsub_none_left (b : Option ℚ) : fsub none b = none := by cases b <;> rfl

theorem fmul_none_right (a : Option ℚ) : fmul a none = none := by cases a <;> rfl

theorem fexp_none (f : ℚ → ℚ) : fexp f none = none := rfl

theorem flt_none (r : ℚ) : flt r none = false := rfl

theorem flt_some (r x : ℚ) : flt r (some x) = decide (r < x) := rfl

/-- When the bid is NaN, the buy branch is unreachable (every comparison
against NaN is false) and the step reduces to the sell test alone. -/
theorem execStep_dir_bid_none (expF : ℚ → ℚ) (r : Row) (rand : ℚ) (inv : ℤ)
    (cash : Option ℚ) (hb : r.quoted_bid = none) :
    (execStep expF r rand inv cash).2.2 =
      (if flt rand (probAskOf expF r) then Direction.sell else Direction.nofill) := by
  have hpb : probBidOf expF r = none := by
    rw [probBidOf, hb, fsub_none_right, fmul_none_right, fexp_none]
  rw [execStep, hpb, fadd_none_right, flt_none]
  split_ifs with h1 h2
  · rfl
  · exact h2.elim
  · rfl

/-- When the ask is NaN, `prob_ask` is NaN and poisons both branch tests
(`rand < prob_ask` and `rand < prob_ask + prob_bid`): no side can fill. -/
theorem execStep_dir_ask_none (expF : ℚ → ℚ) (r : Row) (rand : ℚ) (inv : ℤ)
    (cash : Option ℚ) (ha : r.quoted_ask = none) :
    (execStep expF r rand inv cash).2.2 = Direction.nofill := by
  have hpa : probAskOf expF r = none := by
    rw [probAskOf, ha, fsub_none_left, fmul_none_right, fexp_none]
  rw [execStep, hpa, fadd_none_left, flt_none]
  simp

/-- C1: in simulate_execution, for every time step t > 0: a Buy step raises
inventory by 1 and lowers cash by that step's quoted bid; a Sell step lowers
inventory by 1 and raises cash by that step's quoted ask; a None step leaves
inventory and cash unchanged (the run starting from inventory 0, cash 0). -/
theorem c1_step_accounting (expF : ℚ → ℚ) (rng : Nat → ℚ) (rows : List Row) (t : Nat)
    (ht0 : 0 < t) (ht : t < rows.length) :
    (execAt (simulate_execution expF rng rows) t = Direction.buy →
      invAt (simulate_execution expF rng rows) t =
        invAt (simulate_execution expF rng rows) (t - 1) + 1 ∧
      cashAt (simulate_execution expF rng rows) t =
        fsub (cashAt (simulate_execution expF rng rows) (t - 1))
          (rows.getD t dRow).quoted_bid) ∧
    (execAt (simulate_execution expF rng rows) t = Direction.sell →
      invAt (simulate_execution expF rng rows) t =
        invAt (simulate_execution expF rng rows) (t - 1) - 1 ∧
      cashAt (simulate_execution expF rng rows) t =
        fadd (cashAt (simulate_execution expF rng rows) (t - 1))
          (rows.getD t dRow).quoted_ask) ∧
    (execAt (simulate_execution expF rng rows) t = Direction.nofill →
      invAt (simulate_execution expF rng rows) t =
        invAt (simulate_execution expF rng rows) (t - 1) ∧
      cashAt (simulate_execution expF rng rows) t =
        cashAt (simulate_execution expF rng rows) (t - 1)) := by
  obtain ⟨k, rfl⟩ : ∃ k, t = k + 1 := ⟨t - 1, by omega⟩
  have hk : k < rows.length := by omega
  have hsub : k + 1 - 1 = k := by omega
  have hcur := traj_getD_run expF rng rows (k + 1) ht
  rw [stateAt_succ expF rng rows k hk] at hcur
  rw [hsub, invAt_run expF rng rows (k + 1) ht, invAt_run expF rng rows k hk,
    cashAt_run expF rng rows (k + 1) ht, cashAt_run expF rng rows k hk,
    execAt_run expF rng rows (k + 1) ht]
  rw [execStep] at hcur
  split_ifs at hcur with h1 h2
  · rw [hcur]
    refine ⟨fun hd => ?_, fun _ => ⟨rfl, rfl⟩, fun hd => ?_⟩ <;> simp at hd
  · rw [hcur]
    refine ⟨fun _ => ⟨rfl, rfl⟩, fun hd => ?_, fun hd => ?_⟩ <;> simp at hd
  · rw [hcur]
    refine ⟨fun hd => ?_, fun hd => ?_, fun _ => ⟨rfl, rfl⟩⟩ <;> simp at hd

/-- Witness for C1: a concrete two-step run in which step 1 is a Buy, with
the hypotheses of the theorem discharged at that input. -/
theorem c1_witness :
    0 < 1 ∧
    1 < ([⟨some 100, some 100, some 101⟩, ⟨some 100, some 100, some 101⟩] : List Row).length ∧
    execAt (simulate_execution (fun _ => (1 : ℚ) / 2) (fun _ => (3 : ℚ) / 4)
      [⟨some 100, some 100, some 101⟩, ⟨some 100, some 100, some 101⟩]) 1 = Direction.buy ∧
    (invAt (simulate_execution (fun _ => (1 : ℚ) / 2) (fun _ => (3 : ℚ) / 4)
        [⟨some 100, some 100, some 101⟩, ⟨some 100, some 100, some 101⟩]) 1 =
      invAt (simulate_execution (fun _ => (1 : ℚ) / 2) (fun _ => (3 : ℚ) / 4)
        [⟨some 100, some 100, some 101⟩, ⟨some 100, some 100, some 101⟩]) 0 + 1 ∧
    cashAt (simulate_execution (fun _ => (1 : ℚ) / 2) (fun _ => (3 : ℚ) / 4)
        [⟨some 100, some 100, some 101⟩, ⟨some 100, some 100, some 101⟩]) 1 =
      fsub (cashAt (simulate_execution (fun _ => (1 : ℚ) / 2) (fun _ => (3 : ℚ) / 4)
          [⟨some 100, some 100, some 101⟩, ⟨some 100, some 100, some 101⟩]) 0)
        (([⟨some 100, some 100, some 101⟩, ⟨some 100, some 100, some 101⟩] : List Row).getD 1
          dRow).quoted_bid) :=
  ⟨Nat.one_pos, by decide,
    by
      norm_num [execAt, simulate_execution, traj, execStep, probAskOf, probBidOf,
        fexp, fmul, fsub, fadd, flt_some, aggressiveness_scale],
    (c1_step_accounting (fun _ => (1 : ℚ) / 2) (fun _ => (3 : ℚ) / 4)
      [⟨some 100, some 100, some 101⟩, ⟨some 100, some 100, some 101⟩] 1
      Nat.one_pos (by decide)).1
      (by
        norm_num [execAt, simulate_execution, traj, execStep, probAskOf, probBidOf,
          fexp, fmul, fsub, fadd, flt_some, aggressiveness_scale])⟩

/-- C2: the pnl column produced by simulate_execution satisfies
`pnl[t] = cash[t] + inventory[t] * mid[t]` exactly, at every step. -/
theorem c2_pnl_identity (expF : ℚ → ℚ) (rng : Nat → ℚ) (rows : List Row) (t : Nat)
    (ht : t < rows.length) :
    pnlAt (simulate_execution expF rng rows) t =
      fadd (cashAt (simulate_execution expF rng rows) t)
        (fmul (some ((invAt (simulate_execution expF rng rows) t : ℚ)))
          (rows.getD t dRow).mid) := by
  rw [pnlAt_run expF rng rows t ht, cashAt_run expF rng rows t ht,
    invAt_run expF rng rows t ht]

/-- Witness for C2 at a concrete one-row input. -/
theorem c2_witness :
    0 < ([⟨some 100, some 100, some 100⟩] : List Row).length ∧
    pnlAt (simulate_execution (fun _ => (1 : ℚ) / 2) (fun _ => (3 : ℚ) / 4)
        [⟨some 100, some 100, some 100⟩]) 0 =
      fadd (cashAt (simulate_execution (fun _ => (1 : ℚ) / 2) (fun _ => (3 : ℚ) / 4)
          [⟨some 100, some 100, some 100⟩]) 0)
        (fmul (some ((invAt (simulate_execution (fun _ => (1 : ℚ) / 2) (fun _ => (3 : ℚ) / 4)
            [⟨some 100, some 100, some 100⟩]) 0 : ℚ)))
          (([⟨some 100, some 100, some 100⟩] : List Row).getD 0 dRow).mid) :=
  ⟨Nat.one_pos,
    c2_pnl_identity (fun _ => (1 : ℚ) / 2) (fun _ => (3 : ℚ) / 4)
      [⟨some 100, some 100, some 100⟩] 0 Nat.one_pos⟩

/-- C3 (amended): at a step whose bid is absent (NaN) the buy branch is
impossible and the step fills Sell exactly when the draw is below the ask's
own-distance probability; at a step whose ask is absent NEITHER side can
fill, because `prob_ask` is NaN and the buy test compares the draw against
`prob_ask + prob_bid`, which is NaN as well; the NaN sentinel does flow
through the exponential formula, but every comparison against NaN is false. -/
theorem c3_absent_quote (expF : ℚ → ℚ) (rng : Nat → ℚ) (rows : List Row) (t : Nat)
    (ht : t < rows.length) :
    ((rows.getD t dRow).quoted_bid = none →
      execAt (simulate_execution expF rng rows) t =
        (if flt (rng t) (probAskOf expF (rows.getD t dRow)) then Direction.sell
          else Direction.nofill)) ∧
    ((rows.getD t dRow).quoted_ask = none →
      execAt (simulate_execution expF rng rows) t = Direction.nofill) := by
  have hcur := traj_getD_run expF rng rows t ht
  rw [execAt_run expF rng rows t ht, hcur]
  exact ⟨fun hb => execStep_dir_bid_none expF _ _ _ _ hb,
    fun ha => execStep_dir_ask_none expF _ _ _ _ ha⟩

/-- Witness for C3's amended statement at a one-row input with an absent bid. -/
theorem c3_witness :
    0 < ([⟨some 100, none, some 100⟩] : List Row).length ∧
    ((([⟨some 100, none, some 100⟩] : List Row).getD 0 dRow).quoted_bid = none →
      execAt (simulate_execution (fun q => 1 + q) (fun _ => (1 : ℚ) / 2)
          [⟨some 100, none, some 100⟩]) 0 =
        (if flt ((fun _ => (1 : ℚ) / 2) 0)
            (probAskOf (fun q => 1 + q)
              (([⟨some 100, none, some 100⟩] : List Row).getD 0 dRow)) then Direction.sell
          else Direction.nofill)) ∧
    ((([⟨some 100, none, some 100⟩] : List Row).getD 0 dRow).quoted_ask = none →
      execAt (simulate_execution (fun q => 1 + q) (fun _ => (1 : ℚ) / 2)
          [⟨some 100, none, some 100⟩]) 0 = Direction.nofill) :=
  ⟨Nat.one_pos,
    c3_absent_quote (fun q => 1 + q) (fun _ => (1 : ℚ) / 2)
      [⟨some 100, none, some 100⟩] 0 Nat.one_pos⟩

/-- Counterexample to C3 as stated: one step with mid 100, bid quoted at
100 (distance 0, own-distance fill probability exp(0) = 1: the model of exp
is applied only at 0, where it agrees with the real exponential) and an
ABSENT ask.  The draw 1/2 lies strictly below the bid's own-distance
probability, so per the claim the bid — the still-quoted opposite side —
should fill; the code records no fill, because the absent ask's NaN
propagates through `prob_ask + prob_bid` and blocks the buy branch too. -/
theorem c3_counterexample :
    execAt (simulate_execution (fun q => 1 + q) (fun _ => (1 : ℚ) / 2)
        [⟨some 100, some 100, none⟩]) 0 = Direction.nofill ∧
    flt ((1 : ℚ) / 2) (probBidOf (fun q => 1 + q) ⟨some 100, some 100, none⟩) = true ∧
    (⟨some 100, some 100, none⟩ : Row).quoted_bid ≠ none := by
  refine ⟨?_, ?_, by simp⟩
  · norm_num [execAt, simulate_execution, traj, execStep, probAskOf, probBidOf,
      fexp, fmul, fsub, fadd, flt_some, flt_none, aggressiveness_scale]
  · norm_num [probBidOf, fexp, fmul, fsub, flt_some, aggressiveness_scale]

/-
  Pointwise evaluation of the quote-engine Series algebra.
-/

theorem padTo_length (n : Nat) (s : Series) : (padTo n s).length = max s.length n := by
  simp only [padTo, List.length_append, List.length_replicate]
  omega

theorem padTo_getD (n : Nat) (s : Series) (i : Nat) (d : Option ℚ)
    (h : i < s.length) : (padTo n s).getD i d = s.getD i d :=
  getD_append_left s _ i d h

theorem sbin_length (f : ℚ → ℚ → ℚ) (a b : Series) :
    (sbin f a b).length = max a.length b.length := by
  simp only [sbin, List.length_zipWith, padTo_length]
  omega

theorem sbin_getD (f : ℚ → ℚ → ℚ) (a b : Series) (i : Nat)
    (ha : i < a.length) (hb : i < b.length) :
    (sbin f a b).getD i none = fbin f (a.getD i none) (b.getD i none) := by
  have hpa : i < (padTo (max a.length b.length) a).length := by
    rw [padTo_length]; omega
  have hpb : i < (padTo (max a.length b.length) b).length := by
    rw [padTo_length]; omega
  rw [sbin, getD_zipWith_of_lt (fbin f) none none _ _ i none hpa hpb,
    padTo_getD _ _ _ _ ha, padTo_getD _ _ _ _ hb]

theorem smapc_length (f : ℚ → ℚ) (s : Series) : (smapc f s).length = s.length := by
  simp [smapc]

theorem smapc_getD (f : ℚ → ℚ) (s : Series) (i : Nat) (h : i < s.length) :
    (smapc f s).getD i none = Option.map f (s.getD i none) :=
  getD_map_of_lt (Option.map f) none s i none h

theorem map_some_getD (xs : List ℚ) (i : Nat) (h : i < xs.length) :
    (xs.map some).getD i none = some (xs.getD i 0) :=
  getD_map_of_lt some 0 xs i none h

theorem rollingStdFill_length (sqrtF : ℚ → ℚ) (w : Nat) (xs : List ℚ) :
    (rollingStdFill sqrtF w xs).length = xs.length := by
  simp [rollingStdFill]

theorem rollingStdFill_getD (sqrtF : ℚ → ℚ) (w : Nat) (xs : List ℚ) (t : Nat)
    (h : t < xs.length) :
    (rollingStdFill sqrtF w xs).getD t 0 =
      (if t + 1 < w then 0 else sqrtF (sampleVar (windowSlice w xs t))) := by
  have hr : t < (List.range xs.length).length := by simpa using h
  rw [rollingStdFill,
    getD_map_of_lt (fun t => if t + 1 < w then 0 else sqrtF (sampleVar (windowSlice w xs t)))
      0 (List.range xs.length) t 0 hr]
  have : (List.range xs.length).getD t 0 = t := by
    rw [List.getD_eq_getElem (List.range xs.length) 0 hr, List.getElem_range]
  rw [this]

theorem rollingStdFill_nonneg (sqrtF : ℚ → ℚ) (hsq : ∀ x, 0 ≤ sqrtF x)
    (w : Nat) (xs : List ℚ) (t : Nat) :
    0 ≤ (rollingStdFill sqrtF w xs).getD t 0 := by
  by_cases h : t < xs.length
  · rw [rollingStdFill_getD sqrtF w xs t h]
    split_ifs
    · exact le_refl 0
    · exact hsq _
  · rw [List.getD_eq_default]
    rw [rollingStdFill_length]
    omega

theorem penaltySeries_length (sqrtF : ℚ → ℚ) (mid_prices inventory : List ℚ)
    (inventory_penalty : ℚ) :
    (penaltySeries sqrtF mid_prices inventory inventory_penalty).length =
      max inventory.length mid_prices.length := by
  simp [penaltySeries, sbin_length, smapc_length, rollingStdFill_length]

theorem penaltySeries_getD (sqrtF : ℚ → ℚ) (mid_prices inventory : List ℚ)
    (inventory_penalty : ℚ) (t : Nat) (h1 : t < mid_prices.length)
    (h2 : t < inventory.length) :
    (penaltySeries sqrtF mid_prices inventory inventory_penalty).getD t none =
      some (inventory.getD t 0 * inventory_penalty *
        (1 + (rollingStdFill sqrtF 10 mid_prices).getD t 0)) := by
  have hl : t < (smapc (· * inventory_penalty) (inventory.map some)).length := by
    rw [smapc_length, List.length_map]; exact h2
  have hr : t < ((rollingStdFill sqrtF 10 mid_prices).map
      (fun v => some (1 + v))).length := by
    rw [List.length_map, rollingStdFill_length]; exact h1
  rw [penaltySeries, sbin_getD _ _ _ t hl hr,
    smapc_getD _ _ t (by rw [List.length_map]; exact h2),
    map_some_getD inventory t h2,
    getD_map_of_lt (fun v => some (1 + v)) 0 _ t none
      (by rw [rollingStdFill_length]; exact h1)]
  rfl

theorem rawBid_length (sqrtF : ℚ → ℚ) (mid_prices signals inventory : List ℚ)
    (base_spread inventory_penalty signal_strength : ℚ) :
    (rawBid sqrtF mid_prices signals inventory base_spread inventory_penalty
      signal_strength).length =
      max (max mid_prices.length (max inventory.length mid_prices.length))
        signals.length := by
  simp [rawBid, sbin_length, smapc_length, penaltySeries_length]

theorem rawAsk_length (sqrtF : ℚ → ℚ) (mid_prices signals inventory : List ℚ)
    (base_spread inventory_penalty signal_strength : ℚ) :
    (rawAsk sqrtF mid_prices signals inventory base_spread inventory_penalty
      signal_strength).length =
      max (max mid_prices.length (max inventory.length mid_prices.length))
        signals.length := by
  simp [rawAsk, sbin_length, smapc_length, penaltySeries_length]

theorem rawBid_getD (sqrtF : ℚ → ℚ) (mid_prices signals inventory : List ℚ)
    (base_spread inventory_penalty signal_strength : ℚ) (t : Nat)
    (h1 : t < mid_prices.length) (h2 : t < signals.length) (h3 : t < inventory.length) :
    (rawBid sqrtF mid_prices signals inventory base_spread inventory_penalty
        signal_strength).getD t none =
      some (mid_prices.getD t 0 - base_spread / 2 -
        inventory.getD t 0 * inventory_penalty *
          (1 + (rollingStdFill sqrtF 10 mid_prices).getD t 0) +
        signals.getD t 0 * signal_strength) := by
  have hm : t < (smapc (· - base_spread / 2) (mid_prices.map some)).length := by
    rw [smapc_length, List.length_map]; exact h1
  have hp : t < (penaltySeries sqrtF mid_prices inventory inventory_penalty).length := by
    rw [penaltySeries_length]; omega
  have hmp : t < (sbin (· - ·) (smapc (· - base_spread / 2) (mid_prices.map some))
      (penaltySeries sqrtF mid_prices inventory inventory_penalty)).length := by
    rw [sbin_length]; omega
  have hs : t < (smapc (· * signal_strength) (signals.map some)).length := by
    rw [smapc_length, List.length_map]; exact h2
  rw [rawBid, sbin_getD _ _ _ t hmp hs, sbin_getD _ _ _ t hm hp,
    smapc_getD _ _ t (by rw [List.length_map]; exact h1),
    smapc_getD _ _ t (by rw [List.length_map]; exact h2),
    map_some_getD mid_prices t h1, map_some_getD signals t h2,
    penaltySeries_getD sqrtF mid_prices inventory inventory_penalty t h1 h3]
  rfl

theorem rawAsk_getD (sqrtF : ℚ → ℚ) (mid_prices signals inventory : List ℚ)
    (base_spread inventory_penalty signal_strength : ℚ) (t : Nat)
    (h1 : t < mid_prices.length) (h2 : t < signals.length) (h3 : t < inventory.length) :
    (rawAsk sqrtF mid_prices signals inventory base_spread inventory_penalty
        signal_strength).getD t none =
      some (mid_prices.getD t 0 + base_spread / 2 -
        inventory.getD t 0 * inventory_penalty *
          (1 + (rollingStdFill sqrtF 10 mid_prices).getD t 0) +
        signals.getD t 0 * signal_strength) := by
  have hm : t < (smapc (· + base_spread / 2) (mid_prices.map some)).length := by
    rw [smapc_length, List.length_map]; exact h1
  have hp : t < (penaltySeries sqrtF mid_prices inventory inventory_penalty).length := by
    rw [penaltySeries_length]; omega
  have hmp : t < (sbin (· - ·) (smapc (· + base_spread / 2) (mid_prices.map some))
      (penaltySeries sqrtF mid_prices inventory inventory_penalty)).length := by
    rw [sbin_length]; omega
  have hs : t < (smapc (· * signal_strength) (signals.map some)).length := by
    rw [smapc_length, List.length_map]; exact h2
  rw [rawAsk, sbin_getD _ _ _ t hmp hs, sbin_getD _ _ _ t hm hp,
    smapc_getD _ _ t (by rw [List.length_map]; exact h1),
    smapc_getD _ _ t (by rw [List.length_map]; exact h2),
    map_some_getD mid_prices t h1, map_some_getD signals t h2,
    penaltySeries_getD sqrtF mid_prices inventory inventory_penalty t h1 h3]
  rfl

/-
  The position-limit loop touches index t based only on inventory[t].
-/

theorem limitLoop_getD_lt (m : ℚ) :
    ∀ (xs : List ℚ) (i : Nat) (bid ask : Series) (j : Nat) (d : Option ℚ), j < i →
      ((limitLoop m (enumFromQ i xs) bid ask).1.getD j d = bid.getD j d ∧
        (limitLoop m (enumFromQ i xs) bid ask).2.getD j d = ask.getD j d) := by
  intro xs
  induction xs with
  | nil => intro i bid ask j d _; exact ⟨rfl, rfl⟩
  | cons x xs ih =>
    intro i bid ask j d hj
    simp only [enumFromQ, limitLoop]
    split_ifs with h1 h2
    · have := ih (i + 1) (bid.set i none) ask j d (by omega)
      rw [this.1, this.2, getD_set_ne _ _ _ _ _ (by omega)]
      exact ⟨rfl, rfl⟩
    · have := ih (i + 1) bid (ask.set i none) j d (by omega)
      rw [this.1, this.2, getD_set_ne _ _ _ _ _ (by omega)]
      exact ⟨rfl, rfl⟩
    · exact ih (i + 1) bid ask j d (by omega)

theorem limitLoop_lengths (m : ℚ) :
    ∀ (l : List (Nat × ℚ)) (bid ask : Series),
      (limitLoop m l bid ask).1.length = bid.length ∧
      (limitLoop m l bid ask).2.length = ask.length := by
  intro l
  induction l with
  | nil => intro bid ask; exact ⟨rfl, rfl⟩
  | cons p l ih =>
    intro bid ask
    obtain ⟨t, iv⟩ := p
    simp only [limitLoop]
    split_ifs with h1 h2
    · have := ih (bid.set t none) ask
      rw [this.1, this.2, List.length_set]
      exact ⟨rfl, rfl⟩
    · have := ih bid (ask.set t none)
      rw [this.1, this.2, List.length_set]
      exact ⟨rfl, rfl⟩
    · exact ih bid ask

theorem limitLoop_eval (m : ℚ) :
    ∀ (xs : List ℚ) (i : Nat) (bid ask : Series) (t : Nat) (d : Option ℚ),
      t < xs.length → i + t < bid.length → i + t < ask.length →
      ((limitLoop m (enumFromQ i xs) bid ask).1.getD (i + t) d =
        (if m ≤ xs.getD t 0 then none else bid.getD (i + t) d)) ∧
      ((limitLoop m (enumFromQ i xs) bid ask).2.getD (i + t) d =
        (if ¬ m ≤ xs.getD t 0 ∧ xs.getD t 0 ≤ -m then none else ask.getD (i + t) d)) := by
  intro xs
  induction xs with
  | nil => intro i bid ask t d ht _ _; simp at ht
  | cons x xs ih =>
    intro i bid ask t d ht hbl hal
    cases t with
    | zero =>
      simp only [enumFromQ, limitLoop, List.getD_cons_zero, Nat.add_zero] at hbl hal ⊢
      by_cases h1 : m ≤ x
      · simp only [if_pos h1]
        have hpre := limitLoop_getD_lt m xs (i + 1) (bid.set i none) ask i d (by omega)
        refine ⟨?_, ?_⟩
        · rw [hpre.1, getD_set_self _ _ _ _ hbl]
        · rw [hpre.2, if_neg (fun hc => hc.1 h1)]
      · simp only [if_neg h1]
        by_cases h2 : x ≤ -m
        · simp only [if_pos h2]
          have hpre := limitLoop_getD_lt m xs (i + 1) bid (ask.set i none) i d (by omega)
          refine ⟨?_, ?_⟩
          · rw [hpre.1]
          · rw [hpre.2, getD_set_self _ _ _ _ hal, if_pos ⟨h1, h2⟩]
        · simp only [if_neg h2]
          have hpre := limitLoop_getD_lt m xs (i + 1) bid ask i d (by omega)
          refine ⟨?_, ?_⟩
          · rw [hpre.1]
          · rw [hpre.2, if_neg (fun hc => h2 hc.2)]
    | succ k =>
      have harith : i + (k + 1) = i + 1 + k := by omega
      have hk : k < xs.length := by simpa using ht
      simp only [enumFromQ, limitLoop, List.getD_cons_succ, harith] at hbl hal ⊢
      by_cases h1 : m ≤ x
      · simp only [if_pos h1]
        have hrec := ih (i + 1) (bid.set i none) ask k d hk
          (by rw [List.length_set]; omega) (by omega)
        refine ⟨?_, ?_⟩
        · rw [hrec.1, getD_set_ne _ _ _ _ _ (by omega)]
        · rw [hrec.2]
      · simp only [if_neg h1]
        by_cases h2 : x ≤ -m
        · simp only [if_pos h2]
          have hrec := ih (i + 1) bid (ask.set i none) k d hk (by omega)
            (by rw [List.length_set]; omega)
          refine ⟨?_, ?_⟩
          · rw [hrec.1]
          · rw [hrec.2, getD_set_ne _ _ _ _ _ (by omega)]
        · simp only [if_neg h2]
          exact ih (i + 1) bid ask k d hk (by omega) (by omega)

/-- Final quotes at step `t`: the raw quote unless the position limit of the
source (`max_inventory = 10`) knocked the side out. -/
theorem generate_quotes_getD (sqrtF : ℚ → ℚ) (mid_prices signals inventory : List ℚ)
    (base_spread inventory_penalty signal_strength : ℚ) (t : Nat) (d : Option ℚ)
    (h3 : t < inventory.length) :
    ((generate_quotes sqrtF mid_prices signals inventory base_spread inventory_penalty
        signal_strength).bid.getD t d =
      (if 10 ≤ inventory.getD t 0 then none
        else (rawBid sqrtF mid_prices signals inventory base_spread inventory_penalty
          signal_strength).getD t d)) ∧
    ((generate_quotes sqrtF mid_prices signals inventory base_spread inventory_penalty
        signal_strength).ask.getD t d =
      (if ¬ (10 : ℚ) ≤ inventory.getD t 0 ∧ inventory.getD t 0 ≤ -10 then none
        else (rawAsk sqrtF mid_prices signals inventory base_spread inventory_penalty
          signal_strength).getD t d)) := by
  have hbl : 0 + t < (rawBid sqrtF mid_prices signals inventory base_spread
      inventory_penalty signal_strength).length := by
    rw [rawBid_length]; omega
  have hal : 0 + t < (rawAsk sqrtF mid_prices signals inventory base_spread
      inventory_penalty signal_strength).length := by
    rw [rawAsk_length]; omega
  have h := limitLoop_eval 10 inventory 0
    (rawBid sqrtF mid_prices signals inventory base_spread inventory_penalty signal_strength)
    (rawAsk sqrtF mid_prices signals inventory base_spread inventory_penalty signal_strength)
    t d h3 hbl hal
  simpa [generate_quotes] using h

/-- C4: generate_quotes blanks the bid at step t whenever
`inventory[t] >= max_inventory` and the ask whenever
`inventory[t] <= -max_inventory`, with the source's `max_inventory = 10`,
judging by the inventory value provided for step t. -/
theorem c4_position_limit (sqrtF : ℚ → ℚ) (mid_prices signals inventory : List ℚ)
    (base_spread inventory_penalty signal_strength : ℚ) (t : Nat)
    (h : t < inventory.length) :
    (10 ≤ inventory.getD t 0 →
      (generate_quotes sqrtF mid_prices signals inventory base_spread inventory_penalty
        signal_strength).bid.getD t (some 0) = none) ∧
    (inventory.getD t 0 ≤ -10 →
      (generate_quotes sqrtF mid_prices signals inventory base_spread inventory_penalty
        signal_strength).ask.getD t (some 0) = none) := by
  have hq := generate_quotes_getD sqrtF mid_prices signals inventory base_spread
    inventory_penalty signal_strength t (some 0) h
  constructor
  · intro hge
    rw [hq.1, if_pos hge]
  · intro hle
    have hn : ¬ (10 : ℚ) ≤ inventory.getD t 0 := by linarith
    rw [hq.2, if_pos ⟨hn, hle⟩]

/-- Witness for C4: at inventory exactly 10 the bid of step 0 is absent. -/
theorem c4_witness :
    0 < ([(10 : ℚ)] : List ℚ).length ∧
    (10 : ℚ) ≤ ([(10 : ℚ)] : List ℚ).getD 0 0 ∧
    ((10 ≤ ([(10 : ℚ)] : List ℚ).getD 0 0 →
      (generate_quotes (fun _ => 0) [100] [0] [(10 : ℚ)] 0.05 0.01 0.02).bid.getD 0
        (some 0) = none) ∧
    (([(10 : ℚ)] : List ℚ).getD 0 0 ≤ -10 →
      (generate_quotes (fun _ => 0) [100] [0] [(10 : ℚ)] 0.05 0.01 0.02).ask.getD 0
        (some 0) = none)) :=
  ⟨Nat.one_pos, by norm_num,
    c4_position_limit (fun _ => 0) [100] [0] [(10 : ℚ)] 0.05 0.01 0.02 0 Nat.one_pos⟩

theorem eq_of_getD_eq {α : Type} (l1 l2 : List α) (d : α) (hlen : l1.length = l2.length)
    (h : ∀ i, i < l1.length → l1.getD i d = l2.getD i d) : l1 = l2 := by
  apply List.ext_getElem hlen
  intro i h1 h2
  have hi := h i h1
  rw [List.getD_eq_getElem l1 d h1, List.getD_eq_getElem l2 d h2] at hi
  exact hi

theorem getD_replicate {α : Type} (n : Nat) (a : α) (i : Nat) (d : α) (h : i < n) :
    (List.replicate n a).getD i d = a := by
  rw [List.getD_eq_getElem _ d (by rw [List.length_replicate]; exact h),
    List.getElem_replicate]

/-- C5: at any step with zero inventory, zero signal and zero rolling
volatility the spread `ask[t] - bid[t]` equals `base_spread` exactly; and on
the concrete scenario mid = [100.0]*5, signal = [0]*5, inventory = [0]*5,
base_spread = 0.05 the quotes are bid = [99.975]*5, ask = [100.025]*5 (the
rolling-volatility term is 0 on the first W-1 steps, so the abstract square
root is never applied). -/
theorem c5_spread (sqrtF : ℚ → ℚ) (mid_prices signals inventory : List ℚ)
    (base_spread inventory_penalty signal_strength : ℚ) (t : Nat)
    (h1 : t < mid_prices.length) (h2 : t < signals.length) (h3 : t < inventory.length)
    (hinv : inventory.getD t 0 = 0) (hsig : signals.getD t 0 = 0)
    (hvol : (rollingStdFill sqrtF 10 mid_prices).getD t 0 = 0) :
    fsub ((generate_quotes sqrtF mid_prices signals inventory base_spread
        inventory_penalty signal_strength).ask.getD t none)
      ((generate_quotes sqrtF mid_prices signals inventory base_spread
        inventory_penalty signal_strength).bid.getD t none) = some base_spread ∧
    generate_quotes sqrtF (List.replicate 5 100) (List.replicate 5 0)
      (List.replicate 5 0) 0.05 0.01 0.02 =
      ⟨List.replicate 5 (some 99.975), List.replicate 5 (some 100.025)⟩ := by
  constructor
  · have hq := generate_quotes_getD sqrtF mid_prices signals inventory base_spread
      inventory_penalty signal_strength t none h3
    have hn : ¬ (10 : ℚ) ≤ inventory.getD t 0 := by rw [hinv]; norm_num
    have hc : ¬ (¬ (10 : ℚ) ≤ inventory.getD t 0 ∧ inventory.getD t 0 ≤ -10) := by
      rw [hinv]; norm_num
    rw [hq.1, hq.2, if_neg hn, if_neg hc,
      rawBid_getD sqrtF mid_prices signals inventory base_spread inventory_penalty
        signal_strength t h1 h2 h3,
      rawAsk_getD sqrtF mid_prices signals inventory base_spread inventory_penalty
        signal_strength t h1 h2 h3, hinv, hsig, hvol]
    simp only [fsub, Option.some.injEq]
    ring
  · have h5 : (List.replicate 5 (100 : ℚ)).length = 5 := List.length_replicate 5 100
    have h5z : (List.replicate 5 (0 : ℚ)).length = 5 := List.length_replicate 5 0
    have hvget : ∀ i : Nat, i < 5 →
        (rollingStdFill sqrtF 10 (List.replicate 5 (100 : ℚ))).getD i 0 = 0 := by
      intro i hi
      rw [rollingStdFill_getD sqrtF 10 _ i (by rw [h5]; exact hi), if_pos (by omega)]
    have hbid : ∀ i : Nat, i < 5 →
        (generate_quotes sqrtF (List.replicate 5 100) (List.replicate 5 0)
          (List.replicate 5 0) 0.05 0.01 0.02).bid.getD i none = some 99.975 := by
      intro i hi
      rw [(generate_quotes_getD sqrtF _ _ _ 0.05 0.01 0.02 i none (by rw [h5z]; exact hi)).1,
        if_neg (by rw [getD_replicate 5 (0 : ℚ) i 0 hi]; norm_num),
        rawBid_getD sqrtF _ _ _ 0.05 0.01 0.02 i (by rw [h5]; exact hi)
          (by rw [h5z]; exact hi) (by rw [h5z]; exact hi),
        getD_replicate 5 (100 : ℚ) i 0 hi, getD_replicate 5 (0 : ℚ) i 0 hi, hvget i hi]
      norm_num
    have hask : ∀ i : Nat, i < 5 →
        (generate_quotes sqrtF (List.replicate 5 100) (List.replicate 5 0)
          (List.replicate 5 0) 0.05 0.01 0.02).ask.getD i none = some 100.025 := by
      intro i hi
      rw [(generate_quotes_getD sqrtF _ _ _ 0.05 0.01 0.02 i none (by rw [h5z]; exact hi)).2,
        if_neg (by rw [getD_replicate 5 (0 : ℚ) i 0 hi]; norm_num),
        rawAsk_getD sqrtF _ _ _ 0.05 0.01 0.02 i (by rw [h5]; exact hi)
          (by rw [h5z]; exact hi) (by rw [h5z]; exact hi),
        getD_replicate 5 (100 : ℚ) i 0 hi, getD_replicate 5 (0 : ℚ) i 0 hi, hvget i hi]
      norm_num
    have hlb : (generate_quotes sqrtF (List.replicate 5 100) (List.replicate 5 0)
        (List.replicate 5 0) 0.05 0.01 0.02).bid.length = 5 := by
      simp only [generate_quotes]
      rw [(limitLoop_lengths 10 _ _ _).1, rawBid_length]
      simp
    have hla : (generate_quotes sqrtF (List.replicate 5 100) (List.replicate 5 0)
        (List.replicate 5 0) 0.05 0.01 0.02).ask.length = 5 := by
      simp only [generate_quotes]
      rw [(limitLoop_lengths 10 _ _ _).2, rawAsk_length]
      simp
    have hb : (generate_quotes sqrtF (List.replicate 5 100) (List.replicate 5 0)
        (List.replicate 5 0) 0.05 0.01 0.02).bid = List.replicate 5 (some 99.975) := by
      apply eq_of_getD_eq _ _ none (by rw [hlb, List.length_replicate])
      intro i hi
      rw [hlb] at hi
      rw [hbid i hi, getD_replicate 5 (some (99.975 : ℚ)) i none hi]
    have ha : (generate_quotes sqrtF (List.replicate 5 100) (List.replicate 5 0)
        (List.replicate 5 0) 0.05 0.01 0.02).ask = List.replicate 5 (some 100.025) := by
      apply eq_of_getD_eq _ _ none (by rw [hla, List.length_replicate])
      intro i hi
      rw [hla] at hi
      rw [hask i hi, getD_replicate 5 (some (100.025 : ℚ)) i none hi]
    have heta : generate_quotes sqrtF (List.replicate 5 100) (List.replicate 5 0)
        (List.replicate 5 0) 0.05 0.01 0.02 =
        ⟨(generate_quotes sqrtF (List.replicate 5 100) (List.replicate 5 0)
            (List.replicate 5 0) 0.05 0.01 0.02).bid,
          (generate_quotes sqrtF (List.replicate 5 100) (List.replicate 5 0)
            (List.replicate 5 0) 0.05 0.01 0.02).ask⟩ := rfl
    rw [heta, hb, ha]

/-- Witness for C5 at t = 0 of the concrete scenario. -/
theorem c5_witness :
    0 < (List.replicate 5 (100 : ℚ)).length ∧
    (List.replicate 5 (0 : ℚ)).getD 0 0 = 0 ∧
    (rollingStdFill (fun _ => 0) 10 (List.replicate 5 (100 : ℚ))).getD 0 0 = 0 ∧
    fsub ((generate_quotes (fun _ => 0) (List.replicate 5 (100 : ℚ))
        (List.replicate 5 0) (List.replicate 5 0) 0.05 0.01 0.02).ask.getD 0 none)
      ((generate_quotes (fun _ => 0) (List.replicate 5 (100 : ℚ))
        (List.replicate 5 0) (List.replicate 5 0) 0.05 0.01 0.02).bid.getD 0 none) =
      some 0.05 :=
  ⟨by norm_num, by norm_num [List.replicate], by norm_num [rollingStdFill, List.range_succ],
    (c5_spread (fun _ => 0) (List.replicate 5 100) (List.replicate 5 0)
      (List.replicate 5 0) 0.05 0.01 0.02 0 (by norm_num) (by norm_num) (by norm_num)
      (by norm_num [List.replicate]) (by norm_num [List.replicate])
      (by norm_num [rollingStdFill, List.range_succ])).1⟩

/-- C9: with mid prices, signals, configuration and the abstract (nonnegative)
square root held fixed, a strictly larger inventory value at step t — both
values strictly inside the position limit — yields a strictly lower bid and a
strictly lower ask at step t, provided `inventory_penalty > 0`. -/
theorem c9_inventory_skew (sqrtF : ℚ → ℚ) (hsq : ∀ x, 0 ≤ sqrtF x)
    (mid_prices signals inv1 inv2 : List ℚ)
    (base_spread inventory_penalty signal_strength : ℚ)
    (hpen : 0 < inventory_penalty) (t : Nat)
    (h1 : t < mid_prices.length) (h2 : t < signals.length)
    (h3 : t < inv1.length) (h4 : t < inv2.length)
    (hlt : inv1.getD t 0 < inv2.getD t 0)
    (hlo1 : -10 < inv1.getD t 0) (hhi1 : inv1.getD t 0 < 10)
    (hlo2 : -10 < inv2.getD t 0) (hhi2 : inv2.getD t 0 < 10) :
    ∃ b1 b2 a1 a2 : ℚ,
      (generate_quotes sqrtF mid_prices signals inv1 base_spread inventory_penalty
        signal_strength).bid.getD t none = some b1 ∧
      (generate_quotes sqrtF mid_prices signals inv2 base_spread inventory_penalty
        signal_strength).bid.getD t none = some b2 ∧
      (generate_quotes sqrtF mid_prices signals inv1 base_spread inventory_penalty
        signal_strength).ask.getD t none = some a1 ∧
      (generate_quotes sqrtF mid_prices signals inv2 base_spread inventory_penalty
        signal_strength).ask.getD t none = some a2 ∧
      b2 < b1 ∧ a2 < a1 := by
  have hq1 := generate_quotes_getD sqrtF mid_prices signals inv1 base_spread
    inventory_penalty signal_strength t none h3
  have hq2 := generate_quotes_getD sqrtF mid_prices signals inv2 base_spread
    inventory_penalty signal_strength t none h4
  have hn1 : ¬ (10 : ℚ) ≤ inv1.getD t 0 := by linarith
  have hn2 : ¬ (10 : ℚ) ≤ inv2.getD t 0 := by linarith
  have hc1 : ¬ (¬ (10 : ℚ) ≤ inv1.getD t 0 ∧ inv1.getD t 0 ≤ -10) := by
    intro hc; linarith [hc.2]
  have hc2 : ¬ (¬ (10 : ℚ) ≤ inv2.getD t 0 ∧ inv2.getD t 0 ≤ -10) := by
    intro hc; linarith [hc.2]
  have hvol : 0 ≤ (rollingStdFill sqrtF 10 mid_prices).getD t 0 :=
    rollingStdFill_nonneg sqrtF hsq 10 mid_prices t
  have hb1 := rawBid_getD sqrtF mid_prices signals inv1 base_spread inventory_penalty
    signal_strength t h1 h2 h3
  have hb2 := rawBid_getD sqrtF mid_prices signals inv2 base_spread inventory_penalty
    signal_strength t h1 h2 h4
  have ha1 := rawAsk_getD sqrtF mid_prices signals inv1 base_spread inventory_penalty
    signal_strength t h1 h2 h3
  have ha2 := rawAsk_getD sqrtF mid_prices signals inv2 base_spread inventory_penalty
    signal_strength t h1 h2 h4
  refine ⟨_, _, _, _,
    by rw [hq1.1, if_neg hn1, hb1],
    by rw [hq2.1, if_neg hn2, hb2],
    by rw [hq1.2, if_neg hc1, ha1],
    by rw [hq2.2, if_neg hc2, ha2], ?_, ?_⟩
  · have hfac : 0 < inventory_penalty *
        (1 + (rollingStdFill sqrtF 10 mid_prices).getD t 0) := by
      have : (0 : ℚ) < 1 + (rollingStdFill sqrtF 10 mid_prices).getD t 0 := by linarith
      exact mul_pos hpen this
    nlinarith [mul_lt_mul_of_pos_right hlt hfac]
  · have hfac : 0 < inventory_penalty *
        (1 + (rollingStdFill sqrtF 10 mid_prices).getD t 0) := by
      have : (0 : ℚ) < 1 + (rollingStdFill sqrtF 10 mid_prices).getD t 0 := by linarith
      exact mul_pos hpen this
    nlinarith [mul_lt_mul_of_pos_right hlt hfac]

/-- Witness for C9: inventory 0 versus 1 at step 0 of a one-step input. -/
theorem c9_witness :
    (∀ x : ℚ, (0 : ℚ) ≤ (fun _ : ℚ => (0 : ℚ)) x) ∧
    (0 : ℚ) < 0.01 ∧
    ([(0 : ℚ)] : List ℚ).getD 0 0 < ([(1 : ℚ)] : List ℚ).getD 0 0 ∧
    (∃ b1 b2 a1 a2 : ℚ,
      (generate_quotes (fun _ => 0) [100] [0] [(0 : ℚ)] 0.05 0.01 0.02).bid.getD 0 none =
        some b1 ∧
      (generate_quotes (fun _ => 0) [100] [0] [(1 : ℚ)] 0.05 0.01 0.02).bid.getD 0 none =
        some b2 ∧
      (generate_quotes (fun _ => 0) [100] [0] [(0 : ℚ)] 0.05 0.01 0.02).ask.getD 0 none =
        some a1 ∧
      (generate_quotes (fun _ => 0) [100] [0] [(1 : ℚ)] 0.05 0.01 0.02).ask.getD 0 none =
        some a2 ∧
      b2 < b1 ∧ a2 < a1) :=
  ⟨fun _ => le_refl 0, by norm_num, by norm_num,
    c9_inventory_skew (fun _ => 0) (fun _ => le_refl 0) [100] [0] [(0 : ℚ)] [(1 : ℚ)]
      0.05 0.01 0.02 (by norm_num) 0 Nat.one_pos Nat.one_pos Nat.one_pos Nat.one_pos
      (by norm_num) (by norm_num) (by norm_num) (by norm_num) (by norm_num)⟩

/-- C6 diagnostic: the caller of simulate_execution controls no seed — the
draws are an ambient stream (numpy's global generator).  Two runs on
IDENTICAL inputs but different ambient streams produce different outputs, so
nothing in the function's inputs pins the result down: reproducibility would
require an injectable seeded source, which the source does not have. -/
theorem c6_global_rng_dependence :
    (simulate_execution (fun q => 1 + q) (fun _ => (1 : ℚ) / 2)
      [⟨some 100, some 100, some 100⟩]).execLog = [Direction.sell] ∧
    (simulate_execution (fun q => 1 + q) (fun _ => (2 : ℚ))
      [⟨some 100, some 100, some 100⟩]).execLog = [Direction.nofill] ∧
    simulate_execution (fun q => 1 + q) (fun _ => (1 : ℚ) / 2)
        [⟨some 100, some 100, some 100⟩] ≠
      simulate_execution (fun q => 1 + q) (fun _ => (2 : ℚ))
        [⟨some 100, some 100, some 100⟩] := by
  refine ⟨?_, ?_, ?_⟩
  · norm_num [simulate_execution, traj, execStep, probAskOf, probBidOf,
      fexp, fmul, fsub, fadd, flt_some, aggressiveness_scale]
  · norm_num [simulate_execution, traj, execStep, probAskOf, probBidOf,
      fexp, fmul, fsub, fadd, flt_some, aggressiveness_scale]
  · intro h
    have hlog := congrArg SimResult.execLog h
    norm_num [simulate_execution, traj, execStep, probAskOf, probBidOf,
      fexp, fmul, fsub, fadd, flt_some, aggressiveness_scale] at hlog
    exact Direction.noConfusion hlog

/-- C8 diagnostic: generate_quotes applied to a 3-step mid/signal and a
2-step inventory raises no error: pandas index alignment silently pads the
missing inventory entry with NaN, and the function returns 3-step bid/ask
Series whose last entry is NaN on both sides. -/
theorem c8_silent_padding :
    (generate_quotes (fun _ => 0) [100, 100, 100] [0, 0, 0] [0, 0]
      0.05 0.01 0.02).bid = [some 99.975, some 99.975, none] ∧
    (generate_quotes (fun _ => 0) [100, 100, 100] [0, 0, 0] [0, 0]
      0.05 0.01 0.02).ask = [some 100.025, some 100.025, none] ∧
    ([(0 : ℚ), 0] : List ℚ).length ≠ ([(100 : ℚ), 100, 100] : List ℚ).length := by
  refine ⟨?_, ?_, by decide⟩
  · norm_num [generate_quotes, rawBid, rawAsk, penaltySeries, rollingStdFill,
      sbin, smapc, padTo, fbin, limitLoop, enumFromQ, List.range_succ]
  · norm_num [generate_quotes, rawBid, rawAsk, penaltySeries, rollingStdFill,
      sbin, smapc, padTo, fbin, limitLoop, enumFromQ, List.range_succ]

/-
  Column-level frame effects of the DataFrame wrapper.
-/

theorem getCol_setCol_self : ∀ (df : DF) (name : String) (c : Col),
    getCol (setCol df name c) name = some c := by
  intro df name c
  induction df with
  | nil => simp [setCol, getCol]
  | cons p rest ih =>
    simp only [setCol]
    by_cases h : p.1 = name
    · rw [if_pos h]
      simp only [getCol]
      rw [if_pos h]
    · rw [if_neg h]
      simp only [getCol]
      rw [if_neg h]
      exact ih

theorem getCol_setCol_ne : ∀ (df : DF) (name n2 : String) (c : Col), n2 ≠ name →
    getCol (setCol df name c) n2 = getCol df n2 := by
  intro df name n2 c hne
  induction df with
  | nil =>
    simp only [setCol, getCol]
    rw [if_neg (fun h => hne h.symm)]
  | cons p rest ih =>
    simp only [setCol]
    by_cases h : p.1 = name
    · rw [if_pos h]
      simp only [getCol]
      have hp : ¬ p.1 = n2 := by rw [h]; exact fun he => hne he.symm
      rw [if_neg hp, if_neg hp]
    · rw [if_neg h]
      simp only [getCol]
      by_cases h2 : p.1 = n2
      · rw [if_pos h2, if_pos h2]
      · rw [if_neg h2, if_neg h2]
        exact ih

theorem mkRows_length : ∀ (ms bs aks : List (Option ℚ)),
    bs.length = ms.length → aks.length = ms.length →
    (mkRows ms bs aks).length = ms.length := by
  intro ms
  induction ms with
  | nil =>
    intro bs aks h1 h2
    simp only [List.length_nil] at h1 h2
    rw [List.length_eq_zero] at h1 h2
    subst h1; subst h2
    rfl
  | cons m ms ih =>
    intro bs aks h1 h2
    cases bs with
    | nil => simp at h1
    | cons b bs =>
      cases aks with
      | nil => simp at h2
      | cons a aks =>
        simp only [mkRows, List.length_cons]
        rw [ih bs aks (by simpa using h1) (by simpa using h2)]

theorem simres_lengths (expF : ℚ → ℚ) (rng : Nat → ℚ) (rows : List Row) :
    (simulate_execution expF rng rows).inventory.length = rows.length ∧
    (simulate_execution expF rng rows).cash.length = rows.length ∧
    (simulate_execution expF rng rows).execLog.length = rows.length ∧
    (simulate_execution expF rng rows).pnl.length = rows.length := by
  simp [simulate_execution, traj_length, List.length_zipWith]

/-- C10 (amended): simulate_execution writes the four columns 'inventory',
'cash', 'execution' and 'pnl' — overwriting a pre-existing column of one of
those names rather than adding a new one — each of the input's row count,
and leaves every column with any other name unchanged. -/
theorem c10_column_effects (expF : ℚ → ℚ) (rng : Nat → ℚ) (df : DF)
    (ms bs aks : List (Option ℚ))
    (hm : getCol df "mid" = some (Col.nums ms))
    (hb : getCol df "quoted_bid" = some (Col.nums bs))
    (ha : getCol df "quoted_ask" = some (Col.nums aks))
    (hlb : bs.length = ms.length) (hla : aks.length = ms.length) :
    (∀ name : String, name ≠ "inventory" → name ≠ "cash" → name ≠ "execution" →
      name ≠ "pnl" →
      getCol (simulate_execution_df expF rng df) name = getCol df name) ∧
    (∃ xs : List ℤ, getCol (simulate_execution_df expF rng df) "inventory" =
      some (Col.ints xs) ∧ xs.length = ms.length) ∧
    (∃ xs : List (Option ℚ), getCol (simulate_execution_df expF rng df) "cash" =
      some (Col.nums xs) ∧ xs.length = ms.length) ∧
    (∃ xs : List Direction, getCol (simulate_execution_df expF rng df) "execution" =
      some (Col.dirs xs) ∧ xs.length = ms.length) ∧
    (∃ xs : List (Option ℚ), getCol (simulate_execution_df expF rng df) "pnl" =
      some (Col.nums xs) ∧ xs.length = ms.length) := by
  have hrows : mkRows (colNums (getCol df "mid")) (colNums (getCol df "quoted_bid"))
      (colNums (getCol df "quoted_ask")) = mkRows ms bs aks := by
    rw [hm, hb, ha]
    rfl
  have hrlen : (mkRows ms bs aks).length = ms.length := mkRows_length ms bs aks hlb hla
  have hout : simulate_execution_df expF rng df =
      setCol (setCol (setCol (setCol df "inventory"
        (Col.ints (simulate_execution expF rng (mkRows ms bs aks)).inventory)) "cash"
        (Col.nums (simulate_execution expF rng (mkRows ms bs aks)).cash)) "execution"
        (Col.dirs (simulate_execution expF rng (mkRows ms bs aks)).execLog)) "pnl"
        (Col.nums (simulate_execution expF rng (mkRows ms bs aks)).pnl) := by
    simp only [simulate_execution_df, hrows]
  have hlens := simres_lengths expF rng (mkRows ms bs aks)
  refine ⟨?_, ?_, ?_, ?_, ?_⟩
  · intro name h1 h2 h3 h4
    rw [hout, getCol_setCol_ne _ _ _ _ h4, getCol_setCol_ne _ _ _ _ h3,
      getCol_setCol_ne _ _ _ _ h2, getCol_setCol_ne _ _ _ _ h1]
  · refine ⟨(simulate_execution expF rng (mkRows ms bs aks)).inventory, ?_, ?_⟩
    · rw [hout, getCol_setCol_ne _ _ _ _ (by decide), getCol_setCol_ne _ _ _ _ (by decide),
        getCol_setCol_ne _ _ _ _ (by decide), getCol_setCol_self]
    · rw [hlens.1, hrlen]
  · refine ⟨(simulate_execution expF rng (mkRows ms bs aks)).cash, ?_, ?_⟩
    · rw [hout, getCol_setCol_ne _ _ _ _ (by decide), getCol_setCol_ne _ _ _ _ (by decide),
        getCol_setCol_self]
    · rw [hlens.2.1, hrlen]
  · refine ⟨(simulate_execution expF rng (mkRows ms bs aks)).execLog, ?_, ?_⟩
    · rw [hout, getCol_setCol_ne _ _ _ _ (by decide), getCol_setCol_self]
    · rw [hlens.2.2.1, hrlen]
  · refine ⟨(simulate_execution expF rng (mkRows ms bs aks)).pnl, ?_, ?_⟩
    · rw [hout, getCol_setCol_self]
    · rw [hlens.2.2.2, hrlen]

/-- Witness for C10's amended statement on a minimal three-column frame. -/
theorem c10_witness :
    getCol [("mid", Col.nums [some (100 : ℚ)]), ("quoted_bid", Col.nums [some 100]),
        ("quoted_ask", Col.nums [some 100])] "mid" = some (Col.nums [some 100]) ∧
    ((∀ name : String, name ≠ "inventory" → name ≠ "cash" → name ≠ "execution" →
      name ≠ "pnl" →
      getCol (simulate_execution_df (fun q => 1 + q) (fun _ => 2)
          [("mid", Col.nums [some (100 : ℚ)]), ("quoted_bid", Col.nums [some 100]),
            ("quoted_ask", Col.nums [some 100])]) name =
        getCol [("mid", Col.nums [some (100 : ℚ)]), ("quoted_bid", Col.nums [some 100]),
          ("quoted_ask", Col.nums [some 100])] name) ∧
    (∃ xs : List ℤ, getCol (simulate_execution_df (fun q => 1 + q) (fun _ => 2)
        [("mid", Col.nums [some (100 : ℚ)]), ("quoted_bid", Col.nums [some 100]),
          ("quoted_ask", Col.nums [some 100])]) "inventory" =
      some (Col.ints xs) ∧ xs.length = ([some (100 : ℚ)] : List (Option ℚ)).length) ∧
    (∃ xs : List (Option ℚ), getCol (simulate_execution_df (fun q => 1 + q) (fun _ => 2)
        [("mid", Col.nums [some (100 : ℚ)]), ("quoted_bid", Col.nums [some 100]),
          ("quoted_ask", Col.nums [some 100])]) "cash" =
      some (Col.nums xs) ∧ xs.length = ([some (100 : ℚ)] : List (Option ℚ)).length) ∧
    (∃ xs : List Direction, getCol (simulate_execution_df (fun q => 1 + q) (fun _ => 2)
        [("mid", Col.nums [some (100 : ℚ)]), ("quoted_bid", Col.nums [some 100]),
          ("quoted_ask", Col.nums [some 100])]) "execution" =
      some (Col.dirs xs) ∧ xs.length = ([some (100 : ℚ)] : List (Option ℚ)).length) ∧
    (∃ xs : List (Option ℚ), getCol (simulate_execution_df (fun q => 1 + q) (fun _ => 2)
        [("mid", Col.nums [some (100 : ℚ)]), ("quoted_bid", Col.nums [some 100]),
          ("quoted_ask", Col.nums [some 100])]) "pnl" =
      some (Col.nums xs) ∧ xs.length = ([some (100 : ℚ)] : List (Option ℚ)).length)) :=
  ⟨rfl,
    c10_column_effects (fun q => 1 + q) (fun _ => 2)
      [("mid", Col.nums [some (100 : ℚ)]), ("quoted_bid", Col.nums [some 100]),
        ("quoted_ask", Col.nums [some 100])]
      [some 100] [some 100] [some 100] rfl rfl rfl rfl rfl⟩

/-- Counterexample to C10 as stated: an input frame that already carries an
'inventory' column (for instance the simulator's own previous output) has
that column OVERWRITTEN, not preserved, and the frame gains only three new
columns, not four. -/
theorem c10_counterexample :
    getCol (simulate_execution_df (fun q => 1 + q) (fun _ => 2)
        [("mid", Col.nums [some (100 : ℚ)]), ("quoted_bid", Col.nums [some 100]),
          ("quoted_ask", Col.nums [some 100]), ("inventory", Col.nums [some 5])])
        "inventory" = some (Col.ints [0]) ∧
    getCol [("mid", Col.nums [some (100 : ℚ)]), ("quoted_bid", Col.nums [some 100]),
        ("quoted_ask", Col.nums [some 100]), ("inventory", Col.nums [some 5])]
      "inventory" = some (Col.nums [some 5]) ∧
    some (Col.ints [(0 : ℤ)]) ≠ some (Col.nums [some (5 : ℚ)]) ∧
    (simulate_execution_df (fun q => 1 + q) (fun _ => 2)
        [("mid", Col.nums [some (100 : ℚ)]), ("quoted_bid", Col.nums [some 100]),
          ("quoted_ask", Col.nums [some 100]), ("inventory", Col.nums [some 5])]).length =
      ([("mid", Col.nums [some (100 : ℚ)]), ("quoted_bid", Col.nums [some 100]),
          ("quoted_ask", Col.nums [some 100]), ("inventory", Col.nums [some 5])] : DF).length
        + 3 := by
  refine ⟨?_, rfl, by simp, ?_⟩
  · norm_num +decide [simulate_execution_df, getCol, setCol, colNums, mkRows,
      simulate_execution, traj, execStep, probAskOf, probBidOf, fexp, fmul, fsub,
      fadd, flt_some, aggressiveness_scale]
  · norm_num +decide [simulate_execution_df, setCol, colNums, mkRows, getCol,
      simulate_execution, traj, execStep, probAskOf, probBidOf, fexp, fmul, fsub,
      fadd, flt_some, aggressiveness_scale]

end MMS
